import Mathlib

/-!
# Verification of the JSON template engine (`Template.cpp`)

Shallow embedding of the Poco JSON `Template` compiler/renderer:
the directive scanner, the stack-based parser, the part tree and its
rendering semantics.  Streams are embedded as `List Char` (a forward-only
character stream with one-character lookahead); the mutable part tree built
through `_currentPart` pointers is embedded as a zipper (`ParseState`):
`acc` holds the children of the node the C++ `_currentPart` points at, and
each `Frame` records one open `for`/`if` block together with the children
list of its enclosing node (the C++ `_partStack` pushes two pointers per
open block — enclosing and opened — so one `Frame` corresponds to exactly
two C++ stack levels).

The dynamic value model (`Poco::Dynamic::Var`, `Poco::JSON::Query`) is an
external collaborator of the core; its definitions below are modelled from
the spec's collaborator contract.
-/

namespace PocoTemplate

/-- Modelled from the spec: the dynamic value model — a tagged union of
bool/number/string/array/ordered-object.  A JSON `null` member behaves as an
empty lookup result in the real value model, so lookups return
`Option Value` with `none` standing for the empty `Var`. -/
inductive Value where
  | bool (b : Bool)
  | num (n : Int)
  | str (s : String)
  | arr (elems : List Value)
  | obj (fields : List (String × Value))
deriving Repr

/-- First-match lookup of a field in an ordered object. -/
def lookupField : List (String × Value) → String → Option Value
  | [], _ => none
  | (k, v) :: rest, n => if k = n then some v else lookupField rest n

/-- Modelled from the spec: object `set(name, value)` — replace the first
binding of the name in place, or append a fresh binding at the end. -/
def setF : List (String × Value) → String → Value → List (String × Value)
  | [], n, x => [(n, x)]
  | (k, v) :: rest, n, x =>
    if k = n then (k, x) :: rest else (k, v) :: setF rest n x

/-- `Object::set` lifted to values: only an associative value is touched. -/
def setField (v : Value) (n : String) (x : Value) : Value :=
  match v with
  | .obj fs => .obj (setF fs n x)
  | _ => v

/-- Modelled from the spec: object `remove(name)` — drop every binding of
the name. -/
def removeField (v : Value) (n : String) : Value :=
  match v with
  | .obj fs => .obj (fs.filter (fun kv => kv.1 != n))
  | _ => v

/-- Field lookup on a value (`none` on non-objects). -/
def getField (v : Value) (n : String) : Option Value :=
  match v with
  | .obj fs => lookupField fs n
  | _ => none

/-- Modelled from the spec: path-query evaluation
`find(path) -> value-or-empty` over dot-separated member access. -/
def findPath : Value → List String → Option Value
  | v, [] => some v
  | v, seg :: rest =>
    match getField v seg with
    | some w => findPath w rest
    | none => none

/-- Dot-splitting of a query path (accumulator of the current segment's
characters in reverse). -/
def splitPathAux : List Char → List Char → List String
  | acc, [] => [String.mk acc.reverse]
  | acc, c :: rest =>
    if c = '.' then String.mk acc.reverse :: splitPathAux [] rest
    else splitPathAux (c :: acc) rest

/-- `Query::find` on a path string: split on dots, walk member access. -/
def find (v : Value) (path : String) : Option Value :=
  findPath v (splitPathAux [] path.data)

/-- `Query::findArray`: the found value if it is an array, else null. -/
def findArray (v : Value) (path : String) : Option (List Value) :=
  match find v path with
  | some (.arr l) => some l
  | _ => none

/-- Modelled from the spec: value-to-bool conversion of the value model —
numeric zero, empty array/object and boolean false convert to false,
everything else to true (guards never reach this on strings; the string
line follows the same non-emptiness reading). -/
def toBoolV : Value → Bool
  | .bool b => b
  | .num n => n != 0
  | .str s => !s.isEmpty
  | .arr l => !l.isEmpty
  | .obj fs => !fs.isEmpty

/-- Decimal digits of a natural number, most significant first; the fuel
argument (any bound above the digit count) keeps the recursion structural. -/
def natDigits : Nat → Nat → List Char
  | 0, _ => []
  | fuel + 1, n =>
    if n = 0 then [] else natDigits fuel (n / 10) ++ [Char.ofNat (48 + n % 10)]

/-- Decimal rendering of a natural number. -/
def natToStr (n : Nat) : String :=
  if n = 0 then "0" else String.mk (natDigits (n + 1) n)

/-- Decimal rendering of an integer. -/
def intToStr : Int → String
  | .ofNat n => natToStr n
  | .negSucc n => "-" ++ natToStr (n + 1)

mutual
/-- Modelled from the spec: value-to-string conversion of the value model
(JSON-style rendering for composites). -/
def valueToString : Value → String
  | .bool b => if b then "true" else "false"
  | .num n => intToStr n
  | .str s => s
  | .arr l => "[" ++ valueListToString l ++ "]"
  | .obj fs => "\x7b" ++ fieldsToString fs ++ "\x7d"

/-- Comma-separated rendering of array elements. -/
def valueListToString : List Value → String
  | [] => ""
  | [v] => valueToString v
  | v :: rest => valueToString v ++ "," ++ valueListToString rest

/-- Comma-separated rendering of object members. -/
def fieldsToString : List (String × Value) → String
  | [] => ""
  | [(k, v)] => "\"" ++ k ++ "\":" ++ valueToString v
  | (k, v) :: rest => "\"" ++ k ++ "\":" ++ valueToString v ++ "," ++ fieldsToString rest
end

/-- `Ascii::isSpace` on the characters the scanner meets. -/
def isSpaceA (c : Char) : Bool :=
  c = ' ' || c = '\t' || c = '\n' || c = '\x0b' || c = '\x0c' || c = '\r'

/-- `Template::readText`: consume characters up to (and including) the
directive opener `<?`; the consumed text excludes the opener. -/
def readText : List Char → List Char × List Char
  | [] => ([], [])
  | c :: rest =>
    if c = '<' && rest.head? = some '?' then ([], rest.tail)
    else
      let (t, r) := readText rest
      (c :: t, r)

/-- `Template::readWhiteSpace`: peek-based discard of contiguous whitespace. -/
def readWhiteSpaceL (l : List Char) : List Char :=
  l.dropWhile isSpaceA

/-- Accumulator loop of `Template::readTemplateCommand`. -/
def readTemplateCommandAux : List Char → List Char → String × List Char
  | acc, [] => (String.mk acc.reverse, [])
  | acc, c :: rest =>
    if isSpaceA c then (String.mk acc.reverse, rest)
    else if c = '?' && (rest.head? = some '>') then (String.mk acc.reverse, c :: rest)
    else if c = '=' && acc.isEmpty then ("echo", rest)
    else readTemplateCommandAux (c :: acc) rest

/-- `Template::readTemplateCommand`: after optional whitespace read a bare
word up to whitespace or the closer `?>` (put back); a single leading `=`
is the implicit command `echo`. -/
def readTemplateCommand (l : List Char) : String × List Char :=
  readTemplateCommandAux [] (readWhiteSpaceL l)

/-- `Template::readWord`: peek-based whitespace-delimited token; the
terminator is not consumed. -/
def readWord : List Char → String × List Char
  | [] => ("", [])
  | c :: rest =>
    if isSpaceA c then ("", c :: rest)
    else
      let (w, r) := readWord rest
      (String.mk [c] ++ w, r)

/-- `Template::readQuery`: get-based token reader that stops (putting the
`?` back) on the closer `?>`, or consumes a terminating whitespace. -/
def readQuery : List Char → String × List Char
  | [] => ("", [])
  | c :: rest =>
    if c = '?' && (rest.head? = some '>') then ("", c :: rest)
    else if isSpaceA c then ("", rest)
    else
      let (w, r) := readQuery rest
      (String.mk [c] ++ w, r)

/-- Body of `Template::readString` after the opening quote: everything up
to the closing quote or end of stream. -/
def readStringAux : List Char → String × List Char
  | [] => ("", [])
  | c :: rest =>
    if c = '"' then ("", rest)
    else
      let (s, r) := readStringAux rest
      (String.mk [c] ++ s, r)

/-- `Template::readString`: a double-quoted literal with no escapes; a
missing opening quote consumes one character and yields the empty string. -/
def readStringL : List Char → String × List Char
  | [] => ("", [])
  | c :: rest => if c = '"' then readStringAux rest else ("", rest)

/-- The `LogicQuery` hierarchy: value-truthy (`LogicQuery`), existence
(`LogicExistQuery`) and always-true (`LogicElseQuery`) guards. -/
inductive LogicQuery where
  | query (q : String)
  | existQuery (q : String)
  | elseQuery
deriving Repr

/-- `LogicQuery::apply` and its overrides: empty lookup is false; a string
is true iff non-empty; any other value converts through the value model;
the exist guard only checks non-emptiness; the else guard is always true. -/
def LogicQuery.apply (lq : LogicQuery) (data : Value) : Bool :=
  match lq with
  | .query q =>
    match find data q with
    | none => false
    | some v =>
      match v with
      | .str s => !s.isEmpty
      | _ => toBoolV v
  | .existQuery q => (find data q).isSome
  | .elseQuery => true

/-- The `Part` hierarchy.  `logicPart` keeps the two parallel vectors of
`LogicPart` (`_queries` and `_parts`, each branch body being a `MultiPart`);
`loopPart` keeps the `_name`/`_query` pair and the `_parts` body of
`LoopPart`.  `includePart` keeps the filename of an `IncludePart` (path
resolution against the parent template needs the filesystem and is not part
of the verified claims). -/
inductive Part where
  | stringPart (content : String)
  | echoPart (query : String)
  | includePart (filename : String)
  | multiPart (parts : List Part)
  | logicPart (queries : List LogicQuery) (parts : List Part)
  | loopPart (name query : String) (parts : List Part)
deriving Repr

mutual
/-- `Part::render` dispatched over the part kinds.  The data context is
threaded explicitly because `LoopPart::render` mutates the shared data
object (`set`/`remove` of the loop-variable field): the returned value is
the context as the caller's `Var` sees it after the call.
`IncludePart::render` obtains the included template from the external
template cache / filesystem collaborators and renders it against the same
context, so in the real program an include can emit output and — through
the included template's own loops — mutate the context; those collaborators
are outside this embedding, and no verified claim's statement depends on
include rendering, so the include case is embedded as empty output with an
unchanged context.  No theorem below asserts purity of a tree that may
contain include parts. -/
def renderPart (p : Part) (data : Value) : Value × String :=
  match p with
  | .stringPart c => (data, c)
  | .echoPart q =>
    (data, match find data q with
           | none => ""
           | some v => valueToString v)
  | .includePart _ => (data, "")
  | .multiPart ps => renderParts ps data
  | .logicPart qs ps => renderLogic qs ps data
  | .loopPart n q ps =>
    match data with
    | .obj fs =>
      match findArray (.obj fs) q with
      | some arr =>
        let (d1, out) := renderLoopIter n ps arr (.obj fs)
        (removeField d1 n, out)
      | none => (.obj fs, "")
    | _ => (data, "")
termination_by (sizeOf p, 0)

/-- `MultiPart::render`: render the children in order, threading the data
context. -/
def renderParts (ps : List Part) (data : Value) : Value × String :=
  match ps with
  | [] => (data, "")
  | p :: rest =>
    let (d1, out1) := renderPart p data
    let (d2, out2) := renderParts rest d1
    (d2, out1 ++ out2)
termination_by (sizeOf ps, 0)

/-- `LogicPart::render`: walk `_queries` with a counter into `_parts`;
render the body paired with the first guard that applies (provided the
parts vector is long enough) and stop. -/
def renderLogic (qs : List LogicQuery) (ps : List Part) (data : Value) : Value × String :=
  match qs, ps with
  | [], _ => (data, "")
  | _ :: _, [] => (data, "")
  | q :: qs', p :: ps' =>
    if q.apply data then renderPart p data
    else renderLogic qs' ps' data
termination_by (sizeOf ps, 0)

/-- The iteration loop of `LoopPart::render`: for each array element in
index order, set the loop-variable field on the (threaded) data object and
render the body. -/
def renderLoopIter (n : String) (body : List Part) (arr : List Value) (data : Value) : Value × String :=
  match arr with
  | [] => (data, "")
  | v :: rest =>
    let d1 := setField data n v
    let (d2, out1) := renderParts body d1
    let (d3, out2) := renderLoopIter n body rest d2
    (d3, out1 ++ out2)
termination_by (sizeOf body, arr.length + 1)
end

/-- One open block of the parse-time nesting stack.  The C++ `_partStack`
pushes two `MultiPart*` levels per open block (the enclosing node and the
opened `LoopPart`/`LogicPart`); one `Frame` stands for exactly such a pair,
carrying the opened block's own data plus the already-collected children of
the enclosing node (`parentAcc`).  For an open `LogicPart`, `queries` are
the guards appended so far and `branches` the bodies of the branches
already closed by `else`/`elsif`; the currently open branch's children live
in `ParseState.acc`. -/
inductive Frame where
  | loopF (name query : String) (parentAcc : List Part)
  | logicF (queries : List LogicQuery) (branches : List (List Part)) (parentAcc : List Part)
deriving Repr

/-- The parser state: the stack of open blocks (innermost first; `[]` is
the sentinel state where `_currentPart` is the root `MultiPart`), and the
children accumulated in the node `_currentPart` points at. -/
structure ParseState where
  frames : List Frame
  acc : List Part
deriving Repr

/-- Closing one frame implicitly (as the already-linked C++ pointer tree
does at end of input): wrap the collected children into the opened block's
node and hand it to the enclosing node's children list. -/
def closeFrame (f : Frame) (children : List Part) : List Part :=
  match f with
  | .loopF n q pa => pa ++ [.loopPart n q children]
  | .logicF qs br pa => pa ++ [.logicPart qs ((br ++ [children]).map .multiPart)]

/-- Fold all open frames back into the root children list; because the C++
tree is linked through pointers at open time, this reconstructs exactly the
tree `_parts` points at, balanced or not. -/
def closeAll : List Frame → List Part → List Part
  | [], acc => acc
  | f :: fs, acc => closeAll fs (closeFrame f acc)

/-- The per-command dispatch of `Template::parse` (the `if`/`else if` chain
over the command name), acting on the parser state and the remaining
input.  Errors are the `JSONTemplateException` messages thrown there. -/
def handleCommand (cmd : String) (st : ParseState) (l : List Char) :
    Except String (ParseState × List Char) :=
  if cmd = "echo" then
    let (q, r) := readQuery l
    if q.isEmpty then .error "Missing query in <? echo ?>"
    else .ok ({ st with acc := st.acc ++ [.echoPart q] }, r)
  else if cmd = "for" then
    let (v, r1) := readWord l
    if v.isEmpty then .error "Missing variable in <? for ?> command"
    else
      let r2 := readWhiteSpaceL r1
      let (q, r3) := readQuery r2
      if q.isEmpty then .error "Missing query in <? for ?> command"
      else .ok (⟨.loopF v q st.acc :: st.frames, []⟩, r3)
  else if cmd = "else" then
    match st.frames with
    | [] => .error "Unexpected <? else ?> found"
    | .loopF _ _ _ :: _ => .error "Missing <? if ?> or <? ifexist ?> for <? else ?>"
    | .logicF qs br pa :: fs =>
      .ok (⟨.logicF (qs ++ [.elseQuery]) (br ++ [st.acc]) pa :: fs, []⟩, l)
  else if cmd = "elsif" || cmd = "elif" then
    let (q, r) := readQuery l
    if q.isEmpty then .error ("Missing query in <? " ++ cmd ++ " ?>")
    else
      match st.frames with
      | [] => .error "Unexpected <? elsif / elif ?> found"
      | .loopF _ _ _ :: _ => .error "Missing <? if ?> or <? ifexist ?> for <? elsif / elif ?>"
      | .logicF qs br pa :: fs =>
        .ok (⟨.logicF (qs ++ [.query q]) (br ++ [st.acc]) pa :: fs, []⟩, r)
  else if cmd = "endfor" then
    match st.frames with
    | [] => .error "Unexpected <? endfor ?> found"
    | .logicF _ _ _ :: _ => .error "Missing <? for ?> command"
    | .loopF n q pa :: fs =>
      .ok (⟨fs, pa ++ [.loopPart n q st.acc]⟩, l)
  else if cmd = "endif" then
    match st.frames with
    | [] => .error "Unexpected <? endif ?> found"
    | .loopF _ _ _ :: _ => .error "Missing <? if ?> or <? ifexist ?> for <? endif ?>"
    | .logicF qs br pa :: fs =>
      .ok (⟨fs, pa ++ [.logicPart qs ((br ++ [st.acc]).map .multiPart)]⟩, l)
  else if cmd = "if" || cmd = "ifexist" then
    let (q, r) := readQuery l
    if q.isEmpty then .error ("Missing query in <? " ++ cmd ++ " ?>")
    else
      let guard : LogicQuery := if cmd = "ifexist" then .existQuery q else .query q
      .ok (⟨.logicF [guard] [] st.acc :: st.frames, []⟩, r)
  else if cmd = "include" then
    let r0 := readWhiteSpaceL l
    let (fname, r) := readStringL r0
    if fname.isEmpty then .error "Missing filename in <? include ?>"
    else .ok ({ st with acc := st.acc ++ [.includePart fname] }, r)
  else .error ("Unknown command " ++ cmd)

/-- The directive-closer handling at the end of each loop iteration of
`Template::parse`: skip whitespace, require `?>`, and after a non-`echo`
directive swallow at most one `\r` followed by at most one `\n`. -/
def finishDirective (cmd : String) (l : List Char) : Except String (List Char) :=
  match readWhiteSpaceL l with
  | '?' :: '>' :: rest =>
    if cmd = "echo" then .ok rest
    else
      let r1 := match rest with
                | '\r' :: r => r
                | _ => rest
      let r2 := match r1 with
                | '\n' :: r => r
                | _ => r1
      .ok r2
  | _ => .error "Missing ?>"

/-- The reading loop of `Template::parse(std::istream&)`: alternate literal
text and directives, stopping without any leftover-stack check when the
command after the text comes back empty (end of input).  The fuel argument
is an upper bound on the number of iterations; every iteration that does
not stop consumes at least one character, so `length + 1` always
suffices. -/
def parseLoop : Nat → ParseState → List Char → Except String ParseState
  | 0, _, _ => .error "out of fuel"
  | fuel + 1, st, l =>
    let (text, l1) := readText l
    let st1 := if text.isEmpty then st
               else { st with acc := st.acc ++ [.stringPart (String.mk text)] }
    let (cmd, l2) := readTemplateCommand l1
    if cmd.isEmpty then .ok st1
    else
      let l3 := readWhiteSpaceL l2
      match handleCommand cmd st1 l3 with
      | .error e => .error e
      | .ok (st2, l4) =>
        match finishDirective cmd l4 with
        | .error e => .error e
        | .ok l5 => parseLoop fuel st2 l5

/-- `Template::parse` on an in-memory stream: run the reading loop from the
fresh root state and report the final parser state. -/
def parseStream (s : String) : Except String ParseState :=
  parseLoop (s.length + 1) ⟨[], []⟩ s.data

/-- The compiled tree the template's `_parts` root points at after parsing:
the root `MultiPart` with every still-open block linked in place. -/
def parseTemplate (s : String) : Except String Part :=
  match parseStream s with
  | .error e => .error e
  | .ok st => .ok (.multiPart (closeAll st.frames st.acc))

/-- The `Template` object state the claims need: `_parts` is null after
construction and set only by a completed `parse` of a source stream. -/
structure TemplateS where
  parts : Option Part

/-- `Template::Template`: `_parts(nullptr)`. -/
def newTemplate : TemplateS := ⟨none⟩

/-- `Template::parse()` on a path: when the file behind the template path
exists (the filesystem is abstracted as the two arguments), parse its
contents; a missing file silently does nothing, leaving `_parts` null.
The parse-error branch is approximated: the C++ throws out of
`parse(std::istream&)` leaving `_parts` pointing at the partially built
tree, while here the template is returned unchanged; no claim below
exercises that branch (C10 uses only the missing-file and success
paths). -/
def parseFile (t : TemplateS) (fileExists : Bool) (contents : String) : TemplateS :=
  if fileExists then
    match parseTemplate contents with
    | .ok p => ⟨some p⟩
    | .error _ => t
  else t

/-- `Template::render` dereferences `_parts` unconditionally; with a null
`_parts` the C++ has undefined behaviour, embedded here as `none` (no
defined output at all), versus `some` of the rendered output. -/
def renderTemplate (t : TemplateS) (data : Value) : Option (Value × String) :=
  match t.parts with
  | some p => some (renderPart p data)
  | none => none

/-! ## Unfolding lemmas for the render functions

The render functions are defined by well-founded recursion, so their
defining equations are exposed as simp lemmas for both symbolic reasoning
and concrete evaluation. -/

@[simp] theorem renderPart_stringPart (c : String) (d : Value) :
    renderPart (.stringPart c) d = (d, c) := by
  simp [renderPart]

@[simp] theorem renderPart_echoPart (q : String) (d : Value) :
    renderPart (.echoPart q) d =
      (d, match find d q with
          | none => ""
          | some v => valueToString v) := by
  simp [renderPart]

@[simp] theorem renderPart_includePart (f : String) (d : Value) :
    renderPart (.includePart f) d = (d, "") := by
  simp [renderPart]

@[simp] theorem renderPart_multiPart (ps : List Part) (d : Value) :
    renderPart (.multiPart ps) d = renderParts ps d := by
  simp [renderPart]

@[simp] theorem renderPart_logicPart (qs : List LogicQuery) (ps : List Part) (d : Value) :
    renderPart (.logicPart qs ps) d = renderLogic qs ps d := by
  simp [renderPart]

@[simp] theorem renderPart_loopPart (n q : String) (ps : List Part) (fs : List (String × Value)) :
    renderPart (.loopPart n q ps) (.obj fs) =
      (match findArray (.obj fs) q with
       | some arr =>
         let (d1, out) := renderLoopIter n ps arr (.obj fs)
         (removeField d1 n, out)
       | none => (.obj fs, "")) := by
  simp [renderPart]

@[simp] theorem renderParts_nil (d : Value) : renderParts [] d = (d, "") := by
  simp [renderParts]

@[simp] theorem renderParts_cons (p : Part) (ps : List Part) (d : Value) :
    renderParts (p :: ps) d =
      (let (d1, out1) := renderPart p d
       let (d2, out2) := renderParts ps d1
       (d2, out1 ++ out2)) := by
  simp [renderParts]

@[simp] theorem renderLogic_nil (ps : List Part) (d : Value) :
    renderLogic [] ps d = (d, "") := by
  simp [renderLogic]

@[simp] theorem renderLogic_cons_nil (q : LogicQuery) (qs : List LogicQuery) (d : Value) :
    renderLogic (q :: qs) [] d = (d, "") := by
  simp [renderLogic]

@[simp] theorem renderLogic_cons_cons (q : LogicQuery) (qs : List LogicQuery)
    (p : Part) (ps : List Part) (d : Value) :
    renderLogic (q :: qs) (p :: ps) d =
      (if q.apply d then renderPart p d else renderLogic qs ps d) := by
  simp [renderLogic]

@[simp] theorem renderLoopIter_nil (n : String) (body : List Part) (d : Value) :
    renderLoopIter n body [] d = (d, "") := by
  simp [renderLoopIter]

@[simp] theorem renderLoopIter_cons (n : String) (body : List Part)
    (v : Value) (arr : List Value) (d : Value) :
    renderLoopIter n body (v :: arr) d =
      (let d1 := setField d n v
       let (d2, out1) := renderParts body d1
       let (d3, out2) := renderLoopIter n body arr d2
       (d3, out1 ++ out2)) := by
  simp [renderLoopIter]

/-! ## Claim theorems -/

/-- C1.  Guard evaluation contract: a value-truthy guard is false on an
empty lookup; on a string it is true iff the string is non-empty; on any
other value it equals the value model's boolean conversion; an exist guard
is true iff the lookup is non-empty; an always-true (else) guard is true
for every data context. -/
theorem guard_evaluation_contract :
    (∀ (data : Value) (q : String), find data q = none →
      LogicQuery.apply (.query q) data = false) ∧
    (∀ (data : Value) (q : String) (s : String), find data q = some (.str s) →
      (LogicQuery.apply (.query q) data = true ↔ s ≠ "")) ∧
    (∀ (data : Value) (q : String) (v : Value), find data q = some v →
      (∀ s, v ≠ .str s) →
      LogicQuery.apply (.query q) data = toBoolV v) ∧
    (∀ (data : Value) (q : String),
      LogicQuery.apply (.existQuery q) data = (find data q).isSome) ∧
    (∀ data : Value, LogicQuery.apply .elseQuery data = true) := by
  refine ⟨?_, ?_, ?_, ?_, ?_⟩
  · intro data q h
    simp [LogicQuery.apply, h]
  · intro data q s h
    simp only [LogicQuery.apply, h]
    simp [← String.isEmpty_iff]
  · intro data q v h hv
    cases v with
    | str s => exact absurd rfl (hv s)
    | bool b => simp [LogicQuery.apply, h, toBoolV]
    | num n => simp [LogicQuery.apply, h, toBoolV]
    | arr l => simp [LogicQuery.apply, h, toBoolV]
    | obj fs => simp [LogicQuery.apply, h, toBoolV]
  · intro data q
    rfl
  · intro data
    rfl

/-- Witness for C1 at concrete inputs: absent path is false; the strings
`"0"`, `"false"` and `""` are true, true and false; a present `false`
boolean follows the model conversion; exist guard sees the falsy value;
else guard ignores everything. -/
theorem guard_evaluation_contract_witness :
    LogicQuery.apply (.query "a") (.obj []) = false ∧
    LogicQuery.apply (.query "a") (.obj [("a", .str "0")]) = true ∧
    LogicQuery.apply (.query "a") (.obj [("a", .str "false")]) = true ∧
    LogicQuery.apply (.query "a") (.obj [("a", .str "")]) = false ∧
    LogicQuery.apply (.query "a") (.obj [("a", .bool false)]) = toBoolV (.bool false) ∧
    LogicQuery.apply (.existQuery "a") (.obj [("a", .bool false)]) = true ∧
    LogicQuery.apply .elseQuery (.obj []) = true := by
  refine ⟨guard_evaluation_contract.1 _ "a" rfl,
          (guard_evaluation_contract.2.1 (.obj [("a", .str "0")]) "a" "0" rfl).mpr
            (by decide),
          (guard_evaluation_contract.2.1 (.obj [("a", .str "false")]) "a" "false" rfl).mpr
            (by decide),
          ?_,
          guard_evaluation_contract.2.2.1 _ "a" (.bool false) rfl
            (fun s h => by cases h),
          ?_, guard_evaluation_contract.2.2.2.2 _⟩
  · have h := guard_evaluation_contract.2.1 (Value.obj [("a", .str "")]) "a" "" rfl
    simp at h
    exact h
  · have h := guard_evaluation_contract.2.2.2.1 (Value.obj [("a", .bool false)]) "a"
    simpa using h

/-- Follows the claim's words, not the source: the position of the first
guard (in append order) that evaluates true on the data context. -/
def specFirstTrueIndex (qs : List LogicQuery) (data : Value) : Option Nat :=
  match qs with
  | [] => none
  | q :: rest =>
    if q.apply data then some 0
    else (specFirstTrueIndex rest data).map (· + 1)

/-- C2.  Conditional dispatch: rendering a conditional part renders exactly
the body paired with the first guard that evaluates true (when the parallel
parts vector reaches that far) and writes nothing when no guard evaluates
true; and the example `<? if a ?>A<? elsif b ?>B<? else ?>C<? endif ?>`
against `{"a":"","b":"1"}` compiles and renders `B`. -/
theorem conditional_dispatch :
    (∀ (qs : List LogicQuery) (ps : List Part) (data : Value),
      renderLogic qs ps data =
        match specFirstTrueIndex qs data with
        | none => (data, "")
        | some i =>
          if h : i < ps.length then renderPart (ps.get ⟨i, h⟩) data
          else (data, "")) ∧
    parseTemplate "<? if a ?>A<? elsif b ?>B<? else ?>C<? endif ?>" =
      .ok (.multiPart [.logicPart [.query "a", .query "b", .elseQuery]
        [.multiPart [.stringPart "A"], .multiPart [.stringPart "B"],
         .multiPart [.stringPart "C"]]]) ∧
    (renderPart (.multiPart [.logicPart [.query "a", .query "b", .elseQuery]
        [.multiPart [.stringPart "A"], .multiPart [.stringPart "B"],
         .multiPart [.stringPart "C"]]])
      (.obj [("a", .str ""), ("b", .str "1")])).2 = "B" := by
  refine ⟨?_, rfl, ?_⟩
  · intro qs
    induction qs with
    | nil => intro ps data; simp [specFirstTrueIndex]
    | cons q qs' ih =>
      intro ps data
      cases ps with
      | nil =>
        simp only [renderLogic_cons_nil, specFirstTrueIndex]
        by_cases hq : q.apply data
        · simp [hq]
        · simp only [hq, if_false]
          cases specFirstTrueIndex qs' data <;> simp
      | cons p ps' =>
        simp only [renderLogic_cons_cons, specFirstTrueIndex]
        by_cases hq : q.apply data
        · simp [hq]
        · simp only [hq, if_false, Bool.false_eq_true]
          rw [ih ps' data]
          cases h : specFirstTrueIndex qs' data with
          | none => simp
          | some i =>
            simp only [Option.map_some']
            by_cases hi : i < ps'.length
            · rw [dif_pos hi, dif_pos (show i + 1 < (p :: ps').length by
                simpa using Nat.succ_lt_succ hi)]
              rfl
            · rw [dif_neg hi, dif_neg (show ¬(i + 1 < (p :: ps').length) by
                simpa [Nat.succ_lt_succ_iff] using hi)]
  · simp [LogicQuery.apply, find, findPath, getField, lookupField, splitPathAux]
    decide

/-- C3.  Loop rendering semantics: a loop over a non-associative context or
a query that does not resolve to an array renders nothing and leaves the
context alone; over a resolved array it renders the body once per element
in index order, binding the loop-variable name to the current element in
the context before each body render, and removes the binding after the
iterations; the example `<? for x items ?><?= x ?>,<? endfor ?>` against
`{"items":[1,2,3]}` compiles, renders `1,2,3,` and leaves the data object
without an `x` field (here: exactly as it was). -/
theorem loop_rendering_semantics :
    (∀ (n q : String) (ps : List Part) (data : Value),
      (∀ fs, data ≠ .obj fs) → renderPart (.loopPart n q ps) data = (data, "")) ∧
    (∀ (n q : String) (ps : List Part) (fs : List (String × Value)),
      findArray (.obj fs) q = none →
      renderPart (.loopPart n q ps) (.obj fs) = (.obj fs, "")) ∧
    (∀ (n q : String) (ps : List Part) (fs : List (String × Value)) (arr : List Value),
      findArray (.obj fs) q = some arr →
      renderPart (.loopPart n q ps) (.obj fs) =
        (removeField (renderLoopIter n ps arr (.obj fs)).1 n,
         (renderLoopIter n ps arr (.obj fs)).2)) ∧
    (∀ (n : String) (ps : List Part) (v : Value) (arr : List Value) (data : Value),
      renderLoopIter n ps (v :: arr) data =
        ((renderLoopIter n ps arr (renderParts ps (setField data n v)).1).1,
         (renderParts ps (setField data n v)).2 ++
           (renderLoopIter n ps arr (renderParts ps (setField data n v)).1).2)) ∧
    parseTemplate "<? for x items ?><?= x ?>,<? endfor ?>" =
      .ok (.multiPart [.loopPart "x" "items" [.echoPart "x", .stringPart ","]]) ∧
    renderPart (.multiPart [.loopPart "x" "items" [.echoPart "x", .stringPart ","]])
        (.obj [("items", .arr [.num 1, .num 2, .num 3])]) =
      (.obj [("items", .arr [.num 1, .num 2, .num 3])], "1,2,3,") := by
  refine ⟨?_, ?_, ?_, ?_, rfl, ?_⟩
  · intro n q ps data hne
    cases data with
    | obj fs => exact absurd rfl (hne fs)
    | bool b => simp [renderPart]
    | num m => simp [renderPart]
    | str s => simp [renderPart]
    | arr l => simp [renderPart]
  · intro n q ps fs h
    simp [renderPart_loopPart, h]
  · intro n q ps fs arr h
    simp [renderPart_loopPart, h]
  · intro n ps v arr data
    simp [renderLoopIter_cons]
  · simp [find, findPath, getField, lookupField, splitPathAux, findArray,
          setField, setF, removeField, valueToString, intToStr, natToStr, natDigits]
    decide

/-- Witness for C3: the non-object case on a scalar context, the missing
array case on `{}`, the array case and the iteration step at the example's
inputs. -/
theorem loop_rendering_semantics_witness :
    renderPart (.loopPart "x" "items" []) (.str "scalar") = (.str "scalar", "") ∧
    renderPart (.loopPart "x" "items" []) (.obj []) = (.obj [], "") ∧
    renderPart (.loopPart "x" "items" []) (.obj [("items", .arr [.num 7])]) =
      (removeField (renderLoopIter "x" [] [.num 7] (.obj [("items", .arr [.num 7])])).1 "x",
       (renderLoopIter "x" [] [.num 7] (.obj [("items", .arr [.num 7])])).2) := by
  refine ⟨loop_rendering_semantics.1 "x" "items" [] (.str "scalar")
            (fun fs h => by cases h),
          loop_rendering_semantics.2.1 "x" "items" [] [] rfl,
          loop_rendering_semantics.2.2.1 "x" "items" [] [("items", .arr [.num 7])]
            [.num 7] rfl⟩

/-! ## Rendering preserves the associative shape of the data context

The only mutations rendering performs are `set`/`remove` of loop-variable
fields on the data object, so an associative context stays associative. -/

mutual
theorem renderPart_obj_shape (p : Part) (fs : List (String × Value)) :
    ∃ fs' out, renderPart p (.obj fs) = (.obj fs', out) := by
  cases p with
  | stringPart c => exact ⟨fs, c, by simp⟩
  | echoPart q =>
    refine ⟨fs, (match find (.obj fs) q with
                 | none => ""
                 | some v => valueToString v), by simp⟩
  | includePart f => exact ⟨fs, "", by simp⟩
  | multiPart ps =>
    obtain ⟨fs1, o1, h1⟩ := renderParts_obj_shape ps fs
    exact ⟨fs1, o1, by simp [h1]⟩
  | logicPart qs ps =>
    obtain ⟨fs1, o1, h1⟩ := renderLogic_obj_shape qs ps fs
    exact ⟨fs1, o1, by simp [h1]⟩
  | loopPart n q ps =>
    cases h : findArray (.obj fs) q with
    | none => exact ⟨fs, "", by simp [renderPart_loopPart, h]⟩
    | some arr =>
      obtain ⟨fs1, out, h1⟩ := renderLoopIter_obj_shape n ps arr fs
      exact ⟨fs1.filter (fun kv => kv.1 != n), out,
        by simp [renderPart_loopPart, h, h1, removeField]⟩
termination_by (sizeOf p, 0)

theorem renderParts_obj_shape (ps : List Part) (fs : List (String × Value)) :
    ∃ fs' out, renderParts ps (.obj fs) = (.obj fs', out) := by
  cases ps with
  | nil => exact ⟨fs, "", by simp⟩
  | cons p rest =>
    obtain ⟨fs1, o1, h1⟩ := renderPart_obj_shape p fs
    obtain ⟨fs2, o2, h2⟩ := renderParts_obj_shape rest fs1
    exact ⟨fs2, o1 ++ o2, by simp [h1, h2]⟩
termination_by (sizeOf ps, 0)

theorem renderLogic_obj_shape (qs : List LogicQuery) (ps : List Part)
    (fs : List (String × Value)) :
    ∃ fs' out, renderLogic qs ps (.obj fs) = (.obj fs', out) := by
  cases qs with
  | nil => exact ⟨fs, "", by simp⟩
  | cons q qs' =>
    cases ps with
    | nil => exact ⟨fs, "", by simp⟩
    | cons p ps' =>
      by_cases hq : q.apply (.obj fs)
      · obtain ⟨fs1, o1, h1⟩ := renderPart_obj_shape p fs
        exact ⟨fs1, o1, by simp [hq, h1]⟩
      · obtain ⟨fs1, o1, h1⟩ := renderLogic_obj_shape qs' ps' fs
        exact ⟨fs1, o1, by simp [hq, h1]⟩
termination_by (sizeOf ps, 0)

theorem renderLoopIter_obj_shape (n : String) (body : List Part)
    (arr : List Value) (fs : List (String × Value)) :
    ∃ fs' out, renderLoopIter n body arr (.obj fs) = (.obj fs', out) := by
  cases arr with
  | nil => exact ⟨fs, "", by simp⟩
  | cons v rest =>
    obtain ⟨fs1, o1, h1⟩ := renderParts_obj_shape body (setF fs n v)
    obtain ⟨fs2, o2, h2⟩ := renderLoopIter_obj_shape n body rest fs1
    exact ⟨fs2, o1 ++ o2, by simp [renderLoopIter_cons, setField, h1, h2]⟩
termination_by (sizeOf body, arr.length + 1)
end

/-- Looking up a name in a field list from which that name's bindings were
all filtered out yields nothing. -/
theorem lookupField_filter_ne (l : List (String × Value)) (n : String) :
    lookupField (l.filter (fun kv => kv.1 != n)) n = none := by
  induction l with
  | nil => rfl
  | cons kv rest ih =>
    by_cases h : kv.1 = n
    · simp [List.filter, h, ih]
    · simp only [List.filter]
      rw [show (kv.1 != n) = true by simpa using h]
      simpa [lookupField, h] using ih

/-- C4 counterexample.  A context that already has a field of the
loop-variable name is NOT restored to its pre-loop shape: looping over the
existing (empty) array `items` with loop variable `x` removes the
pre-existing `"x" : "keep"` field, so the context after the loop differs
from the context before it. -/
theorem loop_frame_restoration_counterexample :
    (renderPart (.loopPart "x" "items" [])
        (.obj [("x", .str "keep"), ("items", .arr [])])).1 =
      .obj [("items", .arr [])] ∧
    (renderPart (.loopPart "x" "items" [])
        (.obj [("x", .str "keep"), ("items", .arr [])])).1 ≠
      .obj [("x", .str "keep"), ("items", .arr [])] := by
  constructor
  · simp [renderPart_loopPart, findArray, find, findPath, getField, lookupField,
          splitPathAux, removeField]
  · simp [renderPart_loopPart, findArray, find, findPath, getField, lookupField,
          splitPathAux, removeField]

/-- C4 amended.  The loop-variable field is removed exactly once, after the
last iteration (the render of a loop over a resolved array is the threaded
iteration result with a single final `remove`); consequently, after a loop
over an existing array the context has no field of the loop-variable name
at all — a pre-existing field of that name is removed rather than restored,
and the context then necessarily differs from its pre-loop shape. -/
theorem loop_frame_removal :
    (∀ (n q : String) (ps : List Part) (fs : List (String × Value)) (arr : List Value),
      findArray (.obj fs) q = some arr →
      renderPart (.loopPart n q ps) (.obj fs) =
        (removeField (renderLoopIter n ps arr (.obj fs)).1 n,
         (renderLoopIter n ps arr (.obj fs)).2)) ∧
    (∀ (n q : String) (ps : List Part) (fs : List (String × Value)) (arr : List Value),
      findArray (.obj fs) q = some arr →
      getField ((renderPart (.loopPart n q ps) (.obj fs)).1) n = none) ∧
    (∀ (n q : String) (ps : List Part) (fs : List (String × Value)) (arr : List Value)
        (v0 : Value),
      findArray (.obj fs) q = some arr →
      getField (.obj fs) n = some v0 →
      (renderPart (.loopPart n q ps) (.obj fs)).1 ≠ .obj fs) := by
  have hnone : ∀ (n q : String) (ps : List Part) (fs : List (String × Value))
      (arr : List Value),
      findArray (.obj fs) q = some arr →
      getField ((renderPart (.loopPart n q ps) (.obj fs)).1) n = none := by
    intro n q ps fs arr h
    obtain ⟨fs1, out, h1⟩ := renderLoopIter_obj_shape n ps arr fs
    simp [renderPart_loopPart, h, h1, removeField, getField, lookupField_filter_ne]
  refine ⟨?_, hnone, ?_⟩
  · intro n q ps fs arr h
    simp [renderPart_loopPart, h]
  · intro n q ps fs arr v0 h hv heq
    have := hnone n q ps fs arr h
    rw [heq] at this
    simp [hv] at this

/-- Witness for C4 at the counterexample's inputs: the loop over the
existing empty array removes the pre-existing `x` binding. -/
theorem loop_frame_removal_witness :
    renderPart (.loopPart "x" "items" [])
        (.obj [("x", .str "keep"), ("items", .arr [])]) =
      (removeField
        (renderLoopIter "x" [] [] (.obj [("x", .str "keep"), ("items", .arr [])])).1 "x",
       (renderLoopIter "x" [] [] (.obj [("x", .str "keep"), ("items", .arr [])])).2) ∧
    getField ((renderPart (.loopPart "x" "items" [])
        (.obj [("x", .str "keep"), ("items", .arr [])])).1) "x" = none ∧
    (renderPart (.loopPart "x" "items" [])
        (.obj [("x", .str "keep"), ("items", .arr [])])).1 ≠
      .obj [("x", .str "keep"), ("items", .arr [])] := by
  refine ⟨loop_frame_removal.1 "x" "items" [] [("x", .str "keep"), ("items", .arr [])] [] rfl,
          loop_frame_removal.2.1 "x" "items" [] [("x", .str "keep"), ("items", .arr [])] [] rfl,
          loop_frame_removal.2.2 "x" "items" [] [("x", .str "keep"), ("items", .arr [])] []
            (.str "keep") rfl rfl⟩

/-- C5 counterexample.  Rendering the same compiled template twice with
the same data context can yield different output: for
`<?= x ?><? for x items ?><? endfor ?>` against `{"x":"A","items":[]}`,
the first render prints `A` and then removes the `x` field (the loop's
cleanup), so the second render of the same (mutated) context prints
nothing. -/
theorem render_repeat_counterexample :
    parseTemplate "<?= x ?><? for x items ?><? endfor ?>" =
      .ok (.multiPart [.echoPart "x", .loopPart "x" "items" []]) ∧
    (renderPart (.multiPart [.echoPart "x", .loopPart "x" "items" []])
        (.obj [("x", .str "A"), ("items", .arr [])])).2 = "A" ∧
    (renderPart (.multiPart [.echoPart "x", .loopPart "x" "items" []])
        (renderPart (.multiPart [.echoPart "x", .loopPart "x" "items" []])
          (.obj [("x", .str "A"), ("items", .arr [])])).1).2 = "" ∧
    ("A" : String) ≠ "" := by
  refine ⟨rfl, ?_, ?_, by decide⟩
  · simp [find, findPath, getField, lookupField, splitPathAux, findArray,
          setField, setF, removeField, valueToString]
  · simp [find, findPath, getField, lookupField, splitPathAux, findArray,
          setField, setF, removeField, valueToString]

/-- C5 amended.  Rendering the same compiled template twice with the same
data context yields identical output whenever the first render leaves the
data context unchanged: the second render then reproduces both the context
and the output of the first.  (A loop whose variable name collides with a
pre-existing field removes that field during the first render and can make
the second render's output differ, as the counterexample shows.) -/
theorem render_repeat_determinism :
    ∀ (p : Part) (d d1 : Value) (out : String),
      renderPart p d = (d1, out) → d1 = d →
      renderPart p d1 = (d1, out) := by
  intro p d d1 out h1 h2
  subst h2
  exact h1

/-- Witness for C5 at concrete inputs: a text template leaves the context
unchanged, so its second render reproduces the first. -/
theorem render_repeat_determinism_witness :
    renderPart (.stringPart "hi") (.obj [("k", .num 3)]) =
      (.obj [("k", .num 3)], "hi") := by
  exact render_repeat_determinism (.stringPart "hi") (.obj [("k", .num 3)])
    (.obj [("k", .num 3)]) "hi" (by simp) rfl

/-! ## Block commands and balanced sequences (for C6)

To state the structural-balance half of the block-terminator claim, the
block directives are lifted to an abstract command alphabet that is run
through the real `handleCommand`/`finishDirective` pair with canonical
argument text (`x`, `x y`); the query strings are irrelevant to the nesting
stack. -/

/-- The block-structure directives. -/
inductive BCmd where
  | bIf
  | bIfexist
  | bElsif
  | bElse
  | bEndif
  | bFor
  | bEndfor
deriving Repr

/-- The command name handed to the parser's dispatch. -/
def bname : BCmd → String
  | .bIf => "if"
  | .bIfexist => "ifexist"
  | .bElsif => "elsif"
  | .bElse => "else"
  | .bEndif => "endif"
  | .bFor => "for"
  | .bEndfor => "endfor"

/-- Canonical argument text (including the directive closer) for each
block command. -/
def bargs : BCmd → List Char
  | .bIf => "x ?>".data
  | .bIfexist => "x ?>".data
  | .bElsif => "x ?>".data
  | .bFor => "x y ?>".data
  | _ => "?>".data

/-- Process one block directive exactly as a loop iteration of
`Template::parse` does after reading the command name: dispatch, then the
closer handling. -/
def runBCmd (c : BCmd) (st : ParseState) : Except String ParseState :=
  match handleCommand (bname c) st (bargs c) with
  | .error e => .error e
  | .ok (st', r) =>
    match finishDirective (bname c) r with
    | .error e => .error e
    | .ok _ => .ok st'

/-- Process a sequence of block directives in order. -/
def runBCmds : List BCmd → ParseState → Except String ParseState
  | [], st => .ok st
  | c :: cs, st =>
    match runBCmd c st with
    | .error e => .error e
    | .ok st' => runBCmds cs st'

/-- Splitting a command sequence splits its processing. -/
theorem runBCmds_append (l1 l2 : List BCmd) (st : ParseState) :
    runBCmds (l1 ++ l2) st =
      match runBCmds l1 st with
      | .error e => .error e
      | .ok st' => runBCmds l2 st' := by
  induction l1 generalizing st with
  | nil => simp [runBCmds]
  | cons c cs ih =>
    simp only [List.cons_append, runBCmds]
    cases runBCmd c st with
    | error e => rfl
    | ok st' => exact ih st'

/-- Fully balanced block-command sequences.  `BalB false s` means `s` is a
neutral sequence (every opener matched by the right closer, every
`else`/`elsif` inside an open conditional); `BalB true s` additionally
allows `else`/`elsif` at the top level, i.e. `s` may continue the body of
an enclosing conditional. -/
inductive BalB : Bool → List BCmd → Prop where
  | nil (b : Bool) : BalB b []
  | forB (b : Bool) (s t : List BCmd) :
      BalB false s → BalB b t → BalB b (.bFor :: (s ++ .bEndfor :: t))
  | ifB (b : Bool) (s t : List BCmd) :
      BalB true s → BalB b t → BalB b (.bIf :: (s ++ .bEndif :: t))
  | ifexB (b : Bool) (s t : List BCmd) :
      BalB true s → BalB b t → BalB b (.bIfexist :: (s ++ .bEndif :: t))
  | elsifB (t : List BCmd) : BalB true t → BalB true (.bElsif :: t)
  | elseB (t : List BCmd) : BalB true t → BalB true (.bElse :: t)

/-- Processing a command whose step succeeds continues from its result. -/
theorem runBCmds_cons_ok {c : BCmd} {st st' : ParseState} (cs : List BCmd)
    (h : runBCmd c st = .ok st') :
    runBCmds (c :: cs) st = runBCmds cs st' := by
  rw [show runBCmds (c :: cs) st =
      (match runBCmd c st with
       | .error e => .error e
       | .ok st1 => runBCmds cs st1) from rfl, h]

/-- Processing a prefix that succeeds continues from its result. -/
theorem runBCmds_append_ok {l1 : List BCmd} {st st' : ParseState} (l2 : List BCmd)
    (h : runBCmds l1 st = .ok st') :
    runBCmds (l1 ++ l2) st = runBCmds l2 st' := by
  rw [runBCmds_append, h]

/-- Running a balanced sequence restores the nesting stack: a neutral
sequence returns the frames it started from (only the accumulated children
change), and a conditional-body sequence keeps its innermost `LogicPart`
frame in place (same enclosing children and outer frames). -/
theorem balB_run {b : Bool} {s : List BCmd} (h : BalB b s) :
    ∀ st : ParseState,
      (b = false → ∃ acc', runBCmds s st = .ok ⟨st.frames, acc'⟩) ∧
      (b = true → ∀ qs br pa fs acc, st = ⟨.logicF qs br pa :: fs, acc⟩ →
        ∃ qs' br' acc', runBCmds s st = .ok ⟨.logicF qs' br' pa :: fs, acc'⟩) := by
  induction h with
  | nil b =>
    intro st
    constructor
    · intro _
      exact ⟨st.acc, rfl⟩
    · intro _ qs br pa fs acc hst
      subst hst
      exact ⟨qs, br, acc, rfl⟩
  | forB b s t hs ht ihs iht =>
    intro st
    have step1 : runBCmd .bFor st = .ok ⟨.loopF "x" "y" st.acc :: st.frames, []⟩ := rfl
    obtain ⟨acc1, h1⟩ := (ihs ⟨.loopF "x" "y" st.acc :: st.frames, []⟩).1 rfl
    have h1' : runBCmds s ⟨.loopF "x" "y" st.acc :: st.frames, []⟩ =
        .ok ⟨.loopF "x" "y" st.acc :: st.frames, acc1⟩ := h1
    have step2 : runBCmd .bEndfor ⟨.loopF "x" "y" st.acc :: st.frames, acc1⟩ =
        .ok ⟨st.frames, st.acc ++ [.loopPart "x" "y" acc1]⟩ := rfl
    have key : runBCmds (.bFor :: (s ++ .bEndfor :: t)) st =
        runBCmds t ⟨st.frames, st.acc ++ [.loopPart "x" "y" acc1]⟩ := by
      rw [runBCmds_cons_ok _ step1, runBCmds_append_ok _ h1',
          runBCmds_cons_ok _ step2]
    constructor
    · intro hb
      obtain ⟨acc', h2⟩ := (iht ⟨st.frames, st.acc ++ [.loopPart "x" "y" acc1]⟩).1 hb
      exact ⟨acc', by rw [key]; exact h2⟩
    · intro hb qs br pa fs acc hst
      subst hst
      obtain ⟨qs', br', acc', h2⟩ :=
        (iht ⟨.logicF qs br pa :: fs, acc ++ [.loopPart "x" "y" acc1]⟩).2 hb
          qs br pa fs (acc ++ [.loopPart "x" "y" acc1]) rfl
      exact ⟨qs', br', acc', by rw [key]; exact h2⟩
  | ifB b s t hs ht ihs iht =>
    intro st
    have step1 : runBCmd .bIf st =
        .ok ⟨.logicF [.query "x"] [] st.acc :: st.frames, []⟩ := rfl
    obtain ⟨qs1, br1, acc1, h1⟩ :=
      (ihs ⟨.logicF [.query "x"] [] st.acc :: st.frames, []⟩).2 rfl
        [.query "x"] [] st.acc st.frames [] rfl
    have step2 : runBCmd .bEndif ⟨.logicF qs1 br1 st.acc :: st.frames, acc1⟩ =
        .ok ⟨st.frames, st.acc ++ [.logicPart qs1 ((br1 ++ [acc1]).map .multiPart)]⟩ := rfl
    have key : runBCmds (.bIf :: (s ++ .bEndif :: t)) st =
        runBCmds t ⟨st.frames,
          st.acc ++ [.logicPart qs1 ((br1 ++ [acc1]).map .multiPart)]⟩ := by
      rw [runBCmds_cons_ok _ step1, runBCmds_append_ok _ h1,
          runBCmds_cons_ok _ step2]
    constructor
    · intro hb
      obtain ⟨acc', h2⟩ :=
        (iht ⟨st.frames, st.acc ++ [.logicPart qs1 ((br1 ++ [acc1]).map .multiPart)]⟩).1 hb
      exact ⟨acc', by rw [key]; exact h2⟩
    · intro hb qs br pa fs acc hst
      subst hst
      obtain ⟨qs', br', acc', h2⟩ :=
        (iht ⟨.logicF qs br pa :: fs,
          acc ++ [.logicPart qs1 ((br1 ++ [acc1]).map .multiPart)]⟩).2 hb
          qs br pa fs (acc ++ [.logicPart qs1 ((br1 ++ [acc1]).map .multiPart)]) rfl
      exact ⟨qs', br', acc', by rw [key]; exact h2⟩
  | ifexB b s t hs ht ihs iht =>
    intro st
    have step1 : runBCmd .bIfexist st =
        .ok ⟨.logicF [.existQuery "x"] [] st.acc :: st.frames, []⟩ := rfl
    obtain ⟨qs1, br1, acc1, h1⟩ :=
      (ihs ⟨.logicF [.existQuery "x"] [] st.acc :: st.frames, []⟩).2 rfl
        [.existQuery "x"] [] st.acc st.frames [] rfl
    have step2 : runBCmd .bEndif ⟨.logicF qs1 br1 st.acc :: st.frames, acc1⟩ =
        .ok ⟨st.frames, st.acc ++ [.logicPart qs1 ((br1 ++ [acc1]).map .multiPart)]⟩ := rfl
    have key : runBCmds (.bIfexist :: (s ++ .bEndif :: t)) st =
        runBCmds t ⟨st.frames,
          st.acc ++ [.logicPart qs1 ((br1 ++ [acc1]).map .multiPart)]⟩ := by
      rw [runBCmds_cons_ok _ step1, runBCmds_append_ok _ h1,
          runBCmds_cons_ok _ step2]
    constructor
    · intro hb
      obtain ⟨acc', h2⟩ :=
        (iht ⟨st.frames, st.acc ++ [.logicPart qs1 ((br1 ++ [acc1]).map .multiPart)]⟩).1 hb
      exact ⟨acc', by rw [key]; exact h2⟩
    · intro hb qs br pa fs acc hst
      subst hst
      obtain ⟨qs', br', acc', h2⟩ :=
        (iht ⟨.logicF qs br pa :: fs,
          acc ++ [.logicPart qs1 ((br1 ++ [acc1]).map .multiPart)]⟩).2 hb
          qs br pa fs (acc ++ [.logicPart qs1 ((br1 ++ [acc1]).map .multiPart)]) rfl
      exact ⟨qs', br', acc', by rw [key]; exact h2⟩
  | elsifB t ht iht =>
    intro st
    refine ⟨(fun hb => nomatch hb), ?_⟩
    intro _ qs br pa fs acc hst
    subst hst
    have step1 : runBCmd .bElsif ⟨.logicF qs br pa :: fs, acc⟩ =
        .ok ⟨.logicF (qs ++ [.query "x"]) (br ++ [acc]) pa :: fs, []⟩ := rfl
    obtain ⟨qs', br', acc', h2⟩ :=
      (iht ⟨.logicF (qs ++ [.query "x"]) (br ++ [acc]) pa :: fs, []⟩).2 rfl
        (qs ++ [.query "x"]) (br ++ [acc]) pa fs [] rfl
    exact ⟨qs', br', acc', by rw [runBCmds_cons_ok _ step1]; exact h2⟩
  | elseB t ht iht =>
    intro st
    refine ⟨(fun hb => nomatch hb), ?_⟩
    intro _ qs br pa fs acc hst
    subst hst
    have step1 : runBCmd .bElse ⟨.logicF qs br pa :: fs, acc⟩ =
        .ok ⟨.logicF (qs ++ [.elseQuery]) (br ++ [acc]) pa :: fs, []⟩ := rfl
    obtain ⟨qs', br', acc', h2⟩ :=
      (iht ⟨.logicF (qs ++ [.elseQuery]) (br ++ [acc]) pa :: fs, []⟩).2 rfl
        (qs ++ [.elseQuery]) (br ++ [acc]) pa fs [] rfl
    exact ⟨qs', br', acc', by rw [runBCmds_cons_ok _ step1]; exact h2⟩

/-- C6.  Block-terminator matching: an `else`, `elsif`, `endif` or
`endfor` directive whose innermost open block is missing (empty nesting
stack) or of the wrong kind fails the parse dispatch with the source's
mismatch error, whatever the parser state and remaining input; and running
any fully balanced block-command sequence from the sentinel state succeeds
and returns the nesting stack to the sentinel (empty) state. -/
theorem block_terminator_matching :
    (∀ (st : ParseState) (l : List Char), st.frames = [] →
      handleCommand "endif" st l = .error "Unexpected <? endif ?> found") ∧
    (∀ (st : ParseState) (l : List Char) (n q : String) (pa : List Part) (fs : List Frame),
      st.frames = .loopF n q pa :: fs →
      handleCommand "endif" st l =
        .error "Missing <? if ?> or <? ifexist ?> for <? endif ?>") ∧
    (∀ (st : ParseState) (l : List Char), st.frames = [] →
      handleCommand "endfor" st l = .error "Unexpected <? endfor ?> found") ∧
    (∀ (st : ParseState) (l : List Char) (qs : List LogicQuery)
        (br : List (List Part)) (pa : List Part) (fs : List Frame),
      st.frames = .logicF qs br pa :: fs →
      handleCommand "endfor" st l = .error "Missing <? for ?> command") ∧
    (∀ (st : ParseState) (l : List Char), st.frames = [] →
      handleCommand "else" st l = .error "Unexpected <? else ?> found") ∧
    (∀ (st : ParseState) (l : List Char) (n q : String) (pa : List Part) (fs : List Frame),
      st.frames = .loopF n q pa :: fs →
      handleCommand "else" st l =
        .error "Missing <? if ?> or <? ifexist ?> for <? else ?>") ∧
    (∀ (st : ParseState) (l : List Char), st.frames = [] →
      handleCommand "elsif" st ('x' :: ' ' :: l) =
        .error "Unexpected <? elsif / elif ?> found") ∧
    (∀ (st : ParseState) (l : List Char) (n q : String) (pa : List Part) (fs : List Frame),
      st.frames = .loopF n q pa :: fs →
      handleCommand "elsif" st ('x' :: ' ' :: l) =
        .error "Missing <? if ?> or <? ifexist ?> for <? elsif / elif ?>") ∧
    (∀ s : List BCmd, BalB false s → ∀ acc : List Part,
      ∃ acc', runBCmds s ⟨[], acc⟩ = .ok ⟨[], acc'⟩) := by
  refine ⟨?_, ?_, ?_, ?_, ?_, ?_, ?_, ?_, ?_⟩
  · intro st l h
    obtain ⟨frames, acc⟩ := st
    cases h
    rfl
  · intro st l n q pa fs h
    obtain ⟨frames, acc⟩ := st
    cases h
    rfl
  · intro st l h
    obtain ⟨frames, acc⟩ := st
    cases h
    rfl
  · intro st l qs br pa fs h
    obtain ⟨frames, acc⟩ := st
    cases h
    rfl
  · intro st l h
    obtain ⟨frames, acc⟩ := st
    cases h
    rfl
  · intro st l n q pa fs h
    obtain ⟨frames, acc⟩ := st
    cases h
    rfl
  · intro st l h
    obtain ⟨frames, acc⟩ := st
    cases h
    rfl
  · intro st l n q pa fs h
    obtain ⟨frames, acc⟩ := st
    cases h
    rfl
  · intro s hs acc
    exact (balB_run hs ⟨[], acc⟩).1 rfl

/-- Witness for C6 at concrete inputs: each mismatch fires on a concrete
state, and the balanced sequence
`if … elsif … else … endif for … endfor` runs back to the sentinel stack. -/
theorem block_terminator_matching_witness :
    handleCommand "endif" ⟨[], []⟩ [] = .error "Unexpected <? endif ?> found" ∧
    handleCommand "endif" ⟨[.loopF "x" "y" []], []⟩ [] =
      .error "Missing <? if ?> or <? ifexist ?> for <? endif ?>" ∧
    handleCommand "endfor" ⟨[], []⟩ [] = .error "Unexpected <? endfor ?> found" ∧
    handleCommand "endfor" ⟨[.logicF [.query "x"] [] []], []⟩ [] =
      .error "Missing <? for ?> command" ∧
    handleCommand "else" ⟨[], []⟩ [] = .error "Unexpected <? else ?> found" ∧
    handleCommand "else" ⟨[.loopF "x" "y" []], []⟩ [] =
      .error "Missing <? if ?> or <? ifexist ?> for <? else ?>" ∧
    handleCommand "elsif" ⟨[], []⟩ ('x' :: ' ' :: []) =
      .error "Unexpected <? elsif / elif ?> found" ∧
    handleCommand "elsif" ⟨[.loopF "x" "y" []], []⟩ ('x' :: ' ' :: []) =
      .error "Missing <? if ?> or <? ifexist ?> for <? elsif / elif ?>" ∧
    ∃ acc', runBCmds [.bIf, .bElsif, .bElse, .bEndif, .bFor, .bEndfor] ⟨[], []⟩ =
      .ok ⟨[], acc'⟩ := by
  refine ⟨block_terminator_matching.1 ⟨[], []⟩ [] rfl,
          block_terminator_matching.2.1 ⟨[.loopF "x" "y" []], []⟩ [] "x" "y" [] [] rfl,
          block_terminator_matching.2.2.1 ⟨[], []⟩ [] rfl,
          block_terminator_matching.2.2.2.1 ⟨[.logicF [.query "x"] [] []], []⟩ []
            [.query "x"] [] [] [] rfl,
          block_terminator_matching.2.2.2.2.1 ⟨[], []⟩ [] rfl,
          block_terminator_matching.2.2.2.2.2.1 ⟨[.loopF "x" "y" []], []⟩ [] "x" "y" [] [] rfl,
          block_terminator_matching.2.2.2.2.2.2.1 ⟨[], []⟩ [] rfl,
          block_terminator_matching.2.2.2.2.2.2.2.1 ⟨[.loopF "x" "y" []], []⟩ []
            "x" "y" [] [] rfl,
          block_terminator_matching.2.2.2.2.2.2.2.2
            [.bIf, .bElsif, .bElse, .bEndif, .bFor, .bEndfor]
            (show BalB false ([.bIf, .bElsif, .bElse, .bEndif, .bFor, .bEndfor]) from
              .ifB false [.bElsif, .bElse] [.bFor, .bEndfor]
                (.elsifB [.bElse] (.elseB [] (.nil true)))
                (.forB false [] [] (.nil false) (.nil false)))
            []⟩

/-- C7.  Directive closer and newline swallowing: when the input after the
directive's arguments (whitespace skipped) does not start with `?>`, the
directive fails with `Missing ?>` — whatever the command; after an `echo`
directive's closer nothing is consumed; after any non-`echo` directive's
closer at most one `\r` followed by at most one `\n` are swallowed (a
second `\r\n`, a second `\n`, or a second `\r` survive); and a concrete
unterminated directive fails the whole parse. -/
theorem directive_closer_and_newline_swallowing :
    (∀ (cmd : String) (l : List Char),
      (∀ rest, readWhiteSpaceL l ≠ '?' :: '>' :: rest) →
      finishDirective cmd l = .error "Missing ?>") ∧
    (∀ l : List Char, finishDirective "echo" ('?' :: '>' :: l) = .ok l) ∧
    (∀ (cmd : String) (l : List Char), cmd ≠ "echo" →
      finishDirective cmd ('?' :: '>' :: '\r' :: '\n' :: l) = .ok l) ∧
    (∀ (cmd : String) (l : List Char), cmd ≠ "echo" →
      finishDirective cmd ('?' :: '>' :: '\r' :: '\n' :: '\r' :: '\n' :: l) =
        .ok ('\r' :: '\n' :: l)) ∧
    (∀ (cmd : String) (l : List Char), cmd ≠ "echo" →
      finishDirective cmd ('?' :: '>' :: '\n' :: '\n' :: l) = .ok ('\n' :: l)) ∧
    (∀ (cmd : String) (l : List Char), cmd ≠ "echo" →
      finishDirective cmd ('?' :: '>' :: '\r' :: '\r' :: l) = .ok ('\r' :: l)) ∧
    parseTemplate "<? if a " = .error "Missing ?>" := by
  refine ⟨?_, ?_, ?_, ?_, ?_, ?_, rfl⟩
  · intro cmd l h
    rw [finishDirective]
    split
    · next rest heq => exact absurd heq (h rest)
    · rfl
  · intro l
    rfl
  · intro cmd l h
    simp [finishDirective, readWhiteSpaceL, isSpaceA, h]
  · intro cmd l h
    simp [finishDirective, readWhiteSpaceL, isSpaceA, h]
  · intro cmd l h
    simp [finishDirective, readWhiteSpaceL, isSpaceA, h]
  · intro cmd l h
    simp [finishDirective, readWhiteSpaceL, isSpaceA, h]

/-- Witness for C7 at concrete inputs: a `for` directive with no closer in
sight fails, and the newline-swallowing cases at `cmd = "for"`. -/
theorem directive_closer_and_newline_swallowing_witness :
    finishDirective "for" [] = .error "Missing ?>" ∧
    finishDirective "echo" ('?' :: '>' :: '\n' :: []) = .ok ('\n' :: []) ∧
    finishDirective "for" ('?' :: '>' :: '\r' :: '\n' :: []) = .ok [] ∧
    finishDirective "for" ('?' :: '>' :: '\r' :: '\n' :: '\r' :: '\n' :: []) =
      .ok ('\r' :: '\n' :: []) ∧
    finishDirective "for" ('?' :: '>' :: '\n' :: '\n' :: []) = .ok ('\n' :: []) ∧
    finishDirective "for" ('?' :: '>' :: '\r' :: '\r' :: []) = .ok ('\r' :: []) := by
  refine ⟨directive_closer_and_newline_swallowing.1 "for" []
            (fun rest h => by cases h),
          directive_closer_and_newline_swallowing.2.1 ('\n' :: []),
          directive_closer_and_newline_swallowing.2.2.1 "for" [] (by decide),
          directive_closer_and_newline_swallowing.2.2.2.1 "for" [] (by decide),
          directive_closer_and_newline_swallowing.2.2.2.2.1 "for" [] (by decide),
          directive_closer_and_newline_swallowing.2.2.2.2.2.1 "for" [] (by decide)⟩

/-- The claim's precondition: the character list contains no occurrence of
the two-character directive opener `<?`. -/
def noOpenerB : List Char → Bool
  | [] => true
  | c :: rest =>
    if c = '<' && rest.head? = some '?' then false else noOpenerB rest

/-- `readText` consumes an opener-free input whole, as literal text. -/
theorem readText_noOpener (l : List Char) (h : noOpenerB l = true) :
    readText l = (l, []) := by
  induction l with
  | nil => rfl
  | cons c rest ih =>
    rw [noOpenerB] at h
    by_cases hcond : (c = '<' && rest.head? = some '?') = true
    · rw [if_pos hcond] at h
      cases h
    · have h' : noOpenerB rest = true := by
        rwa [if_neg hcond] at h
      rw [show readText (c :: rest) =
          (if c = '<' && rest.head? = some '?' then ([], rest.tail)
           else
             let (t, r) := readText rest
             (c :: t, r)) from rfl,
        if_neg hcond, ih h']

/-- C8.  Literal-text identity: a source with no directive opener compiles,
and rendering the compiled template against any data context reproduces the
source text verbatim (and leaves the context untouched). -/
theorem literal_text_identity (s : String) (h : noOpenerB s.data = true) :
    ∃ t, parseTemplate s = .ok t ∧
      ∀ data : Value, renderPart t data = (data, s) := by
  obtain ⟨l⟩ := s
  have hrt := readText_noOpener l h
  cases l with
  | nil =>
    refine ⟨.multiPart [], rfl, ?_⟩
    intro data
    simp
  | cons c rest =>
    refine ⟨.multiPart [.stringPart (String.mk (c :: rest))], ?_, ?_⟩
    · have hlen : (String.mk (c :: rest)).length + 1 = rest.length + 1 + 1 := by
        simp [String.length]
      simp only [parseTemplate, parseStream]
      rw [hlen, parseLoop, hrt]
      rfl
    · intro data
      simp

/-- Witness for C8 at a concrete opener-free input (containing `<`, `?`
and a newline, just not the pair `<?`): the parse result and verbatim
render. -/
theorem literal_text_identity_witness :
    parseTemplate "a<b ?\nc" = .ok (.multiPart [.stringPart "a<b ?\nc"]) ∧
    renderPart (.multiPart [.stringPart "a<b ?\nc"]) (.obj [("a", .num 1)]) =
      (.obj [("a", .num 1)], "a<b ?\nc") := by
  obtain ⟨t, h1, h2⟩ := literal_text_identity "a<b ?\nc" (by decide)
  have hc : parseTemplate "a<b ?\nc" = .ok (.multiPart [.stringPart "a<b ?\nc"]) := rfl
  have ht : t = .multiPart [.stringPart "a<b ?\nc"] := by
    have := h1.symm.trans hc
    injection this
  subst ht
  exact ⟨hc, h2 (.obj [("a", .num 1)])⟩

/-- C9.  Unterminated blocks are silently accepted: the reading loop of
`Template::parse`, on reaching end of input (empty command), returns
success whatever the parser state — including a non-trivial nesting stack —
with no leftover-stack-depth check; concretely, `<? if a ?>X` (an `if`
with no `endif` before end of input) parses to the partially built tree and
a subsequent render produces that partial tree's output `X`. -/
theorem unterminated_blocks_accepted :
    (∀ (fuel : Nat) (st : ParseState), parseLoop (fuel + 1) st [] = .ok st) ∧
    parseTemplate "<? if a ?>X" =
      .ok (.multiPart [.logicPart [.query "a"] [.multiPart [.stringPart "X"]]]) ∧
    (renderPart (.multiPart [.logicPart [.query "a"] [.multiPart [.stringPart "X"]]])
        (.obj [("a", .str "1")])).2 = "X" := by
  refine ⟨fun fuel st => rfl, rfl, ?_⟩
  simp [LogicQuery.apply, find, findPath, getField, lookupField, splitPathAux]
  decide

/-- C10.  Render requires a completed parse: a freshly constructed
template has a null root (`_parts = nullptr`), a path-based parse of a
non-existing file leaves it null (that parse silently does nothing), and
`Template::render`, which dereferences the root unconditionally, has a
defined result exactly when a parse completed and set the root — with a
null root there is no defined output at all (undefined behaviour in the
C++, embedded as `none`). -/
theorem render_requires_completed_parse :
    newTemplate.parts = none ∧
    (∀ s : String, parseFile newTemplate false s = newTemplate) ∧
    (∀ data : Value, renderTemplate newTemplate data = none) ∧
    (∀ (t : TemplateS) (data : Value),
      (renderTemplate t data).isSome ↔ t.parts.isSome) := by
  refine ⟨rfl, fun s => rfl, fun data => rfl, ?_⟩
  intro t data
  obtain ⟨parts⟩ := t
  cases parts with
  | none => simp [renderTemplate]
  | some p => simp [renderTemplate]

end PocoTemplate
